import Mathlib

/-!
Shallow embedding of the `github-graphql-client` TypeScript library
(`src/index.ts`) and proofs about its specification.

The embedding models:
* the GraphQL response envelope and the error taxonomy of
  `GitHubGraphQLClient.query` (HTTP status errors, GraphQL errors,
  missing data);
* the constructor's token fallback logic (`config.token ||
  process.env.GITHUB_TOKEN || ""`, throwing when the result is empty);
* the cursor-chaining pagination loop of
  `getAllPullRequestsWithCommentsSince`, with the sequence of issued
  requests made explicit so that "how many requests, with which
  `after` cursor" is observable;
* the pure aggregation `GitHubPRAnalyzer.getPRSummary` /
  `groupByAuthor`;
* the date utilities `formatDate` / `daysAgo`.

Effectful TypeScript (an `async` method awaiting `fetch`) is modelled by
passing the transport's responses in explicitly: `query` takes the HTTP
response it would have received, and the pagination loop takes the list
of page responses the transport would return, one per round trip.
-/

namespace GitHubGraphQL

/-! Data model: the exported interfaces of `src/index.ts`. -/

/-- Model of `GitHubUser` from `src/index.ts`: `login`, optional `name`/`email`,
`avatarUrl`. -/
structure GitHubUser where
  login : String
  name : Option String
  email : Option String
  avatarUrl : String
deriving Repr, DecidableEq

/-- Model of `PullRequestComment` from `src/index.ts`. -/
structure PullRequestComment where
  id : String
  body : String
  createdAt : String
  updatedAt : String
  author : GitHubUser
  url : String
deriving Repr, DecidableEq

/-- Model of `ReviewComment` from `src/index.ts`. -/
structure ReviewComment where
  id : String
  body : String
  createdAt : String
  updatedAt : String
  author : GitHubUser
  path : String
  line : Option Nat
  originalLine : Option Nat
  url : String
deriving Repr, DecidableEq

/-- The closed state set of a pull request: `"OPEN" | "CLOSED" | "MERGED"`. -/
inductive PRState where
  | OPEN
  | CLOSED
  | MERGED
deriving Repr, DecidableEq, BEq

/-- The `comments` connection of a PR: fetched nodes plus the `totalCount`
field reported by the API (which may exceed `nodes.length`). -/
structure CommentConnection where
  nodes : List PullRequestComment
  totalCount : Nat
deriving Repr, DecidableEq

/-- The `reviewComments` connection of a PR. -/
structure ReviewCommentConnection where
  nodes : List ReviewComment
  totalCount : Nat
deriving Repr, DecidableEq

/-- Model of `PullRequest` from `src/index.ts`. -/
structure PullRequest where
  id : String
  number : Nat
  title : String
  body : Option String
  state : PRState
  createdAt : String
  updatedAt : String
  mergedAt : Option String
  author : GitHubUser
  url : String
  comments : CommentConnection
  reviewComments : ReviewCommentConnection
deriving Repr, DecidableEq

/-- Model of `pageInfo` of the pull-request connection: `hasNextPage` plus the
optional opaque `endCursor`. -/
structure PageInfo where
  hasNextPage : Bool
  endCursor : Option String
deriving Repr, DecidableEq

/-- The `pullRequests` connection of `PullRequestsResponse`. -/
structure PullRequestConnection where
  nodes : List PullRequest
  pageInfo : PageInfo
  totalCount : Nat
deriving Repr, DecidableEq

/-- The `repository` object of `PullRequestsResponse`. -/
structure RepositoryPRs where
  pullRequests : PullRequestConnection
deriving Repr, DecidableEq

/-- Model of `PullRequestsResponse` from `src/index.ts`: the `data` payload of the
fixed pull-request query. -/
structure PullRequestsResponse where
  repository : RepositoryPRs
deriving Repr, DecidableEq

/-- A `locations` entry of a GraphQL error. -/
structure ErrorLocation where
  line : Nat
  column : Nat
deriving Repr, DecidableEq

/-- One entry of the `errors` array of the GraphQL envelope. -/
structure GraphQLErrorItem where
  message : String
  locations : Option (List ErrorLocation)
  path : Option (List String)
deriving Repr, DecidableEq

/-- Model of `GraphQLResponse<T>` from `src/index.ts`: the envelope with optional
`data` and optional `errors`.  An absent (or `null`) field is `none`; an
empty `errors` array is `some []`. -/
structure GraphQLResponse (T : Type) where
  data : Option T
  errors : Option (List GraphQLErrorItem)
deriving Repr, DecidableEq

/-- The part of a `node-fetch` response that `query` inspects: `ok`,
`status`, `statusText`, and the JSON body already decoded as the
envelope. -/
structure HttpResponse (T : Type) where
  ok : Bool
  status : Nat
  statusText : String
  body : GraphQLResponse T
deriving Repr, DecidableEq

/-! Logic of `GitHubGraphQLClient.query` (lines 98–131 of `src/index.ts`).

All failures in the source are `throw new Error(message)`, so an error is
modelled as its message string.  The decision logic after the transport
returns is:

* `if (!response.ok) throw new Error(`HTTP ${status}: ${statusText}`)`
* `if (result.errors && result.errors.length > 0) throw new Error(`GraphQL errors: ${messages.join(", ")}`)`
* `if (!result.data) throw new Error("No data returned from GraphQL query")`
* `return result.data`
-/

/-- The post-transport logic of `GitHubGraphQLClient.query`, applied to the
HTTP response the awaited `fetch` produced. -/
def query {T : Type} (resp : HttpResponse T) : Except String T :=
  if resp.ok then
    match resp.body.errors with
    | some errs =>
      if errs.length > 0 then
        Except.error ("GraphQL errors: " ++ String.intercalate ", " (errs.map (fun e => e.message)))
      else
        match resp.body.data with
        | some d => Except.ok d
        | none => Except.error "No data returned from GraphQL query"
    | none =>
      match resp.body.data with
      | some d => Except.ok d
      | none => Except.error "No data returned from GraphQL query"
  else
    Except.error ("HTTP " ++ toString resp.status ++ ": " ++ resp.statusText)

/-! Logic of the `GitHubGraphQLClient` constructor (lines 84–93 of `src/index.ts`). -/

/-- Model of `GitHubGraphQLClientConfig`: optional `token` and `baseUrl`. -/
structure GitHubGraphQLClientConfig where
  token : Option String
  baseUrl : Option String
deriving Repr, DecidableEq

/-- The private state of a successfully constructed client. -/
structure ClientState where
  token : String
  baseUrl : String
deriving Repr, DecidableEq

/-- JavaScript `a || b` for an optional string `a`: an absent or empty
string is falsy and falls through to `b`. -/
def jsOrElse (a : Option String) (b : String) : String :=
  match a with
  | some s => if s = "" then b else s
  | none => b

/-- The exact message of `throw new Error(...)` in the constructor. -/
def tokenRequiredMessage : String :=
  "GitHub token is required. Set GITHUB_TOKEN environment variable or pass token in config."

/-- The default endpoint `https://api.github.com/graphql`. -/
def defaultBaseUrl : String := "https://api.github.com/graphql"

/-- The constructor: `this.token = config.token || process.env.GITHUB_TOKEN
|| ""`, `this.baseUrl = config.baseUrl || defaultBaseUrl`, then `if
(!this.token) throw`.  `envGithubToken` is the value of
`process.env.GITHUB_TOKEN` (absent = `none`).  The constructor is a pure
function of its inputs and performs no transport interaction. -/
def mkClient (config : GitHubGraphQLClientConfig) (envGithubToken : Option String) :
    Except String ClientState :=
  let token := jsOrElse config.token (jsOrElse envGithubToken "")
  let baseUrl := jsOrElse config.baseUrl defaultBaseUrl
  if token = "" then
    Except.error tokenRequiredMessage
  else
    Except.ok { token := token, baseUrl := baseUrl }

/-! Pagination: `getAllPullRequestsWithCommentsSince` (lines 238–263 of
`src/index.ts`).  Each loop iteration awaits
`getPullRequestsWithCommentsSince(owner, repo, since, 100, after)`, which
invokes `query` with exactly those variables; the transport's successive
page payloads are passed in as an explicit list, one entry per round
trip.  The model also returns the list of requests the loop issued (the
variables each round trip carried), so that request counts and cursor
chaining are observable facts. -/

/-- The variables one round trip of the pagination loop passes to
`getPullRequestsWithCommentsSince` (and hence to `query`):
`{owner, repo, since, first, after}`. -/
structure PageRequest where
  owner : String
  repo : String
  since : String
  first : Nat
  after : Option String
deriving Repr, DecidableEq

/-- The body of the `while (hasNextPage)` loop of
`getAllPullRequestsWithCommentsSince`, recursing over the remaining
transport responses.  Each iteration records the request it issued,
appends `response.repository.pullRequests.nodes` to the accumulator,
and either continues with `after := pageInfo.endCursor` (when
`pageInfo.hasNextPage`) or returns the accumulated list.  If the loop
needs another page but the transport has no further response, the
aggregation fails (`none`): the fail-fast contract returns no partial
list. -/
def getAllAux (owner repo since : String) :
    List PullRequestsResponse → Option String → List PullRequest → List PageRequest →
      Option (List PullRequest) × List PageRequest
  | [], after, _, reqs =>
    (none, reqs ++ [⟨owner, repo, since, 100, after⟩])
  | resp :: rest, after, acc, reqs =>
    let conn := resp.repository.pullRequests
    let reqs2 := reqs ++ [⟨owner, repo, since, 100, after⟩]
    let acc2 := acc ++ conn.nodes
    if conn.pageInfo.hasNextPage then
      getAllAux owner repo since rest conn.pageInfo.endCursor acc2 reqs2
    else
      (some acc2, reqs2)

/-- Model of `getAllPullRequestsWithCommentsSince`: runs the pagination
loop from the initial state (`after` unset, empty accumulator) against
the given sequence of transport responses.  Returns the aggregated PR
list (or `none` on a fail-fast abort) together with the requests
issued. -/
def getAllPullRequestsWithCommentsSince (owner repo since : String)
    (pages : List PullRequestsResponse) :
    Option (List PullRequest) × List PageRequest :=
  getAllAux owner repo since pages none [] []

/-- A transport script the loop consumes completely: every page except
the last reports `hasNextPage = true`, and the last reports
`hasNextPage = false`. -/
def isCompleteScript : List PullRequestsResponse → Bool
  | [] => false
  | [p] => !p.repository.pullRequests.pageInfo.hasNextPage
  | p :: q :: rest =>
    p.repository.pullRequests.pageInfo.hasNextPage && isCompleteScript (q :: rest)

/-- The request sequence the loop is specified to issue against a script:
the first request carries the starting cursor, and each later request
carries the previous page's `endCursor`.  Every request uses page size
100. -/
def chainRequests (owner repo since : String) :
    Option String → List PullRequestsResponse → List PageRequest
  | after, [] => [⟨owner, repo, since, 100, after⟩]
  | after, [_] => [⟨owner, repo, since, 100, after⟩]
  | after, p :: q :: rest =>
    ⟨owner, repo, since, 100, after⟩ ::
      chainRequests owner repo since p.repository.pullRequests.pageInfo.endCursor (q :: rest)

/-! Aggregation: `GitHubPRAnalyzer.getPRSummary` and `groupByAuthor`
(lines 289–319 of `src/index.ts`). -/

/-- The summary object `getPRSummary` returns.  `prsByAuthor` models the
JavaScript `Record<string, number>` as an association list in key
insertion order. -/
structure PRSummary where
  totalPRs : Nat
  openPRs : Nat
  closedPRs : Nat
  mergedPRs : Nat
  totalComments : Nat
  totalReviewComments : Nat
  prsByAuthor : List (String × Nat)
deriving Repr, DecidableEq

/-- One step of `groupByAuthor`'s loop body:
`grouped[author] = (grouped[author] || 0) + 1`.  On a `Record`, this
increments the existing entry in place (keeping its position) or appends
a new entry with count 1. -/
def bumpAuthor (grouped : List (String × Nat)) (author : String) : List (String × Nat) :=
  if grouped.any (fun kv => kv.1 == author) then
    grouped.map (fun kv => if kv.1 == author then (kv.1, kv.2 + 1) else kv)
  else
    grouped ++ [(author, 1)]

/-- Model of `GitHubPRAnalyzer.groupByAuthor`: folds the loop body over
the PR list, starting from the empty record. -/
def groupByAuthor (prs : List PullRequest) : List (String × Nat) :=
  prs.foldl (fun grouped pr => bumpAuthor grouped pr.author.login) []

/-- The pure aggregate computation of `getPRSummary`, applied to the PR
list the auto-paginating fetch produced. -/
def getPRSummaryOf (prs : List PullRequest) : PRSummary :=
  { totalPRs := prs.length
    openPRs := (prs.filter (fun pr => pr.state == PRState.OPEN)).length
    closedPRs := (prs.filter (fun pr => pr.state == PRState.CLOSED)).length
    mergedPRs := (prs.filter (fun pr => pr.state == PRState.MERGED)).length
    totalComments := prs.foldl (fun sum pr => sum + pr.comments.totalCount) 0
    totalReviewComments := prs.foldl (fun sum pr => sum + pr.reviewComments.totalCount) 0
    prsByAuthor := groupByAuthor prs }

/-- Model of `GitHubPRAnalyzer.getPRSummary`: fetch all pages through the
pagination loop, then summarize.  A failed fetch propagates (fail-fast,
no partial summary). -/
def getPRSummary (owner repo since : String) (pages : List PullRequestsResponse) :
    Option PRSummary :=
  match (getAllPullRequestsWithCommentsSince owner repo since pages).1 with
  | some prs => some (getPRSummaryOf prs)
  | none => none

/-! Date utilities: `formatDate` and `daysAgo` (lines 268–279 of
`src/index.ts`). -/

/-- A JavaScript `Date`: an instant, milliseconds since the Unix epoch. -/
structure JSDate where
  msSinceEpoch : Int
deriving Repr, DecidableEq

/-- Milliseconds per day. -/
def msPerDay : Int := 86400000

/-- The UTC calendar-day index of an instant (days since the epoch,
floored). -/
def calendarDayIndex (d : JSDate) : Int :=
  d.msSinceEpoch.fdiv msPerDay

/-- Civil date `(year, month, day)` from a day index (days since
1970-01-01), by the standard Gregorian-calendar conversion. -/
def civilFromDays (z0 : Int) : Int × Nat × Nat :=
  let z := z0 + 719468
  let era := z.fdiv 146097
  let doe := (z - era * 146097).toNat
  let yoe := (doe - doe / 1460 + doe / 36524 - doe / 146096) / 365
  let doy := doe - (365 * yoe + yoe / 4 - yoe / 100)
  let mp := (5 * doy + 2) / 153
  let day := doy - (153 * mp + 2) / 5 + 1
  let month := if mp < 10 then mp + 3 else mp - 9
  let year := (yoe : Int) + era * 400
  (if month ≤ 2 then year + 1 else year, month, day)

/-- A natural number, zero-padded to the given width. -/
def padNat (width n : Nat) : String :=
  let s := toString n
  String.mk (List.replicate (width - s.length) '0') ++ s

/-- An integer, zero-padded to the given width (with a leading minus sign
for negative values). -/
def padInt (width : Nat) (n : Int) : String :=
  if n < 0 then "-" ++ padNat width (-n).toNat else padNat width n.toNat

/-- JavaScript `Date.prototype.toISOString`: the UTC instant rendered as
`YYYY-MM-DDTHH:MM:SS.mmmZ`. -/
def toISOString (d : JSDate) : String :=
  let days := d.msSinceEpoch.fdiv msPerDay
  let msOfDay := (d.msSinceEpoch - days * msPerDay).toNat
  let ymd := civilFromDays days
  padInt 4 ymd.1 ++ "-" ++ padNat 2 ymd.2.1 ++ "-" ++ padNat 2 ymd.2.2 ++ "T" ++
    padNat 2 (msOfDay / 3600000) ++ ":" ++ padNat 2 (msOfDay / 60000 % 60) ++ ":" ++
    padNat 2 (msOfDay / 1000 % 60) ++ "." ++ padNat 3 (msOfDay % 1000) ++ "Z"

/-- Model of `GitHubGraphQLClient.formatDate`: `date.toISOString()`. -/
def formatDate (d : JSDate) : String :=
  toISOString d

/-- The effect of `date.setDate(date.getDate() - days)`: setting the
day-of-month to (its current value minus `days`) normalizes through the
civil calendar and shifts the instant by exactly `days` days. -/
def setDateMinusDays (d : JSDate) (days : Int) : JSDate :=
  ⟨d.msSinceEpoch - days * msPerDay⟩

/-- Model of `GitHubGraphQLClient.daysAgo`, with the current moment
(`new Date()`) passed in explicitly: shift it back `days` days and
format. -/
def daysAgo (now : JSDate) (days : Int) : String :=
  formatDate (setDateMinusDays now days)

/-! Concrete fixtures, mirroring the repository's test data
(`tests/GitHubGraphQLClient.test.ts`). -/

/-- The author `user1` of the summary test fixture. -/
def user1 : GitHubUser :=
  ⟨"user1", none, none, "https://avatar1.url"⟩

/-- The author `user2` of the summary test fixture. -/
def user2 : GitHubUser :=
  ⟨"user2", none, none, "https://avatar2.url"⟩

/-- Fixture PR 1: OPEN, 2 comments, 1 review comment, by `user1`. -/
def examplePR1 : PullRequest :=
  ⟨"PR_1", 1, "PR 1", none, PRState.OPEN, "2023-01-01T00:00:00Z", "2023-01-02T00:00:00Z",
    none, user1, "https://github.com/owner/repo/pull/1", ⟨[], 2⟩, ⟨[], 1⟩⟩

/-- Fixture PR 2: MERGED, 3 comments, 2 review comments, by `user2`. -/
def examplePR2 : PullRequest :=
  ⟨"PR_2", 2, "PR 2", none, PRState.MERGED, "2023-01-01T00:00:00Z", "2023-01-02T00:00:00Z",
    some "2023-01-03T00:00:00Z", user2, "https://github.com/owner/repo/pull/2", ⟨[], 3⟩, ⟨[], 2⟩⟩

/-- Fixture PR 3: CLOSED, 1 comment, 0 review comments, by `user1`. -/
def examplePR3 : PullRequest :=
  ⟨"PR_3", 3, "PR 3", none, PRState.CLOSED, "2023-01-01T00:00:00Z", "2023-01-02T00:00:00Z",
    none, user1, "https://github.com/owner/repo/pull/3", ⟨[], 1⟩, ⟨[], 0⟩⟩

/-- The three-PR fixture list of the summary test. -/
def examplePRs : List PullRequest :=
  [examplePR1, examplePR2, examplePR3]

/-! Theorems about `query`'s error taxonomy. -/

/-- C1: whenever the response envelope carries a non-empty `errors` array,
`query` fails with a GraphQL error whose message is "GraphQL errors: "
followed by the comma-joined error messages in array order — even when a
`data` field is also present in the envelope. -/
theorem query_fails_on_graphql_errors (T : Type) (status : Nat) (statusText : String)
    (dataField : Option T) (errs : List GraphQLErrorItem) (h : errs ≠ []) :
    query (⟨true, status, statusText, ⟨dataField, some errs⟩⟩ : HttpResponse T) =
      Except.error ("GraphQL errors: " ++
        String.intercalate ", " (errs.map (fun e => e.message))) := by
  cases errs with
  | nil => exact absurd rfl h
  | cons e rest => simp [query]

/-- Witness for C1: a concrete envelope with two errors and a present
`data` field; the joined message is literally
"GraphQL errors: boom, Field not found". -/
theorem query_fails_on_graphql_errors_witness :
    query (⟨true, 200, "OK",
        ⟨some 7, some [⟨"boom", none, none⟩, ⟨"Field not found", none, none⟩]⟩⟩ :
          HttpResponse Nat) =
      Except.error ("GraphQL errors: " ++
        String.intercalate ", "
          (([⟨"boom", none, none⟩, ⟨"Field not found", none, none⟩] :
            List GraphQLErrorItem).map (fun e => e.message))) ∧
    ("GraphQL errors: " ++
        String.intercalate ", "
          (([⟨"boom", none, none⟩, ⟨"Field not found", none, none⟩] :
            List GraphQLErrorItem).map (fun e => e.message))) =
      "GraphQL errors: boom, Field not found" :=
  ⟨query_fails_on_graphql_errors Nat 200 "OK" (some 7) _ (List.cons_ne_nil _ _), rfl⟩

/-- C6: a successful-status response whose body has no `data` field and no
non-empty `errors` array makes `query` fail with exactly
"No data returned from GraphQL query". -/
theorem query_fails_on_missing_data (T : Type) (status : Nat) (statusText : String)
    (errs : Option (List GraphQLErrorItem)) (h : errs = none ∨ errs = some []) :
    query (⟨true, status, statusText, ⟨none, errs⟩⟩ : HttpResponse T) =
      Except.error "No data returned from GraphQL query" := by
  rcases h with h | h <;> subst h <;> rfl

/-- Witness for C6: the empty response body (no `data`, no `errors`) with a
successful status. -/
theorem query_fails_on_missing_data_witness :
    query (⟨true, 200, "OK", ⟨none, none⟩⟩ : HttpResponse Nat) =
      Except.error "No data returned from GraphQL query" :=
  query_fails_on_missing_data Nat 200 "OK" none (Or.inl rfl)

/-! Theorems about the constructor's token handling. -/

/-- C4: with no config token and no environment token, construction fails
with the exact configuration error message (the constructor is a pure
function of its two inputs, so the failure is synchronous and involves no
transport); when either source supplies a non-empty token, construction
succeeds. -/
theorem mkClient_token_required :
    (∀ baseUrl : Option String,
      mkClient ⟨none, baseUrl⟩ none = Except.error tokenRequiredMessage) ∧
    (∀ (t : String) (baseUrl env : Option String), t ≠ "" →
      mkClient ⟨some t, baseUrl⟩ env = Except.ok ⟨t, jsOrElse baseUrl defaultBaseUrl⟩) ∧
    (∀ (t : String) (baseUrl : Option String), t ≠ "" →
      mkClient ⟨none, baseUrl⟩ (some t) = Except.ok ⟨t, jsOrElse baseUrl defaultBaseUrl⟩) := by
  refine ⟨fun baseUrl => rfl, ?_, ?_⟩
  · intro t baseUrl env h
    simp [mkClient, jsOrElse, h]
  · intro t baseUrl h
    simp [mkClient, jsOrElse, h]

/-- Witness for C4: no token anywhere fails; a config token or an
environment token succeeds. -/
theorem mkClient_token_required_witness :
    mkClient ⟨none, none⟩ none = Except.error tokenRequiredMessage ∧
    mkClient ⟨some "my-token", none⟩ none = Except.ok ⟨"my-token", defaultBaseUrl⟩ ∧
    mkClient ⟨none, none⟩ (some "env-token") = Except.ok ⟨"env-token", defaultBaseUrl⟩ :=
  ⟨mkClient_token_required.1 none,
   by simpa [jsOrElse] using mkClient_token_required.2.1 "my-token" none none (by decide),
   by simpa [jsOrElse] using mkClient_token_required.2.2 "env-token" none (by decide)⟩

/-- C10: an explicitly supplied empty-string token behaves identically to
supplying no token at all — the environment fallback is consulted, and
when it also yields no token (or an empty one), construction fails with
the configuration error. -/
theorem mkClient_empty_token_like_none :
    (∀ baseUrl env : Option String,
      mkClient ⟨some "", baseUrl⟩ env = mkClient ⟨none, baseUrl⟩ env) ∧
    (∀ baseUrl env : Option String, env = none ∨ env = some "" →
      mkClient ⟨some "", baseUrl⟩ env = Except.error tokenRequiredMessage) := by
  constructor
  · intro baseUrl env
    simp [mkClient, jsOrElse]
  · intro baseUrl env h
    rcases h with h | h <;> subst h <;> simp [mkClient, jsOrElse]

/-- Witness for C10: the empty-string token with an empty environment and
with an empty-string environment token. -/
theorem mkClient_empty_token_like_none_witness :
    mkClient ⟨some "", none⟩ none = mkClient ⟨none, none⟩ none ∧
    mkClient ⟨some "", none⟩ (some "") = Except.error tokenRequiredMessage :=
  ⟨mkClient_empty_token_like_none.1 none none,
   mkClient_empty_token_like_none.2 none (some "") (Or.inr rfl)⟩

/-! Theorems about the pagination loop. -/

/-- Helper: one unfolding step of the pagination loop on a cons script. -/
theorem getAllAux_cons (owner repo since : String) (resp : PullRequestsResponse)
    (rest : List PullRequestsResponse) (after : Option String) (acc : List PullRequest)
    (reqs : List PageRequest) :
    getAllAux owner repo since (resp :: rest) after acc reqs =
      (if resp.repository.pullRequests.pageInfo.hasNextPage then
        getAllAux owner repo since rest resp.repository.pullRequests.pageInfo.endCursor
          (acc ++ resp.repository.pullRequests.nodes)
          (reqs ++ [⟨owner, repo, since, 100, after⟩])
      else
        (some (acc ++ resp.repository.pullRequests.nodes),
         reqs ++ [⟨owner, repo, since, 100, after⟩])) := rfl

/-- Helper: running the pagination loop against a complete script from any
intermediate state appends the concatenation of all remaining page nodes
to the accumulator and issues exactly the cursor-chained requests. -/
theorem getAllAux_complete_spec (owner repo since : String) :
    ∀ (pages : List PullRequestsResponse) (after : Option String)
      (acc : List PullRequest) (reqs : List PageRequest),
      isCompleteScript pages = true →
      getAllAux owner repo since pages after acc reqs =
        (some (acc ++ (pages.map (fun p => p.repository.pullRequests.nodes)).flatten),
         reqs ++ chainRequests owner repo since after pages)
  | [], _, _, _, h => by simp [isCompleteScript] at h
  | [p], after, acc, reqs, h => by
    simp only [isCompleteScript, Bool.not_eq_true'] at h
    simp [getAllAux, chainRequests, h]
  | p :: q :: rest, after, acc, reqs, h => by
    simp only [isCompleteScript, Bool.and_eq_true] at h
    have ih := getAllAux_complete_spec owner repo since (q :: rest)
      p.repository.pullRequests.pageInfo.endCursor (acc ++ p.repository.pullRequests.nodes)
      (reqs ++ [⟨owner, repo, since, 100, after⟩]) h.2
    rw [getAllAux_cons, if_pos h.1, ih]
    simp [chainRequests, List.append_assoc]

/-- C2: for the two-page script (page 1: one PR, `hasNextPage`, cursor
"cursor1"; page 2: one PR, no next page), the aggregation returns the two
nodes in page order and issues exactly two requests, the second carrying
`after = "cursor1"`; in general, a complete script yields the
concatenation of all page nodes in page order, with one request per page
whose cursor is the previous page's `endCursor` (none for the first). -/
theorem getAll_pagination_spec :
    (∀ (owner repo since : String) (pr1 pr2 : PullRequest) (tc1 tc2 : Nat)
      (ec2 : Option String),
      getAllPullRequestsWithCommentsSince owner repo since
          [⟨⟨⟨[pr1], ⟨true, some "cursor1"⟩, tc1⟩⟩⟩, ⟨⟨⟨[pr2], ⟨false, ec2⟩, tc2⟩⟩⟩] =
        (some [pr1, pr2],
         [⟨owner, repo, since, 100, none⟩, ⟨owner, repo, since, 100, some "cursor1"⟩])) ∧
    (∀ (owner repo since : String) (pages : List PullRequestsResponse),
      isCompleteScript pages = true →
      getAllPullRequestsWithCommentsSince owner repo since pages =
        (some ((pages.map (fun p => p.repository.pullRequests.nodes)).flatten),
         chainRequests owner repo since none pages)) := by
  constructor
  · intro owner repo since pr1 pr2 tc1 tc2 ec2
    simp [getAllPullRequestsWithCommentsSince, getAllAux]
  · intro owner repo since pages h
    simpa using getAllAux_complete_spec owner repo since pages none [] [] h

/-- Witness for C2: the two-page fixture of the repository's pagination
test, plus a concrete complete one-page script for the general part. -/
theorem getAll_pagination_spec_witness :
    getAllPullRequestsWithCommentsSince "owner" "repo" "2023-01-01T00:00:00Z"
        [⟨⟨⟨[examplePR1], ⟨true, some "cursor1"⟩, 2⟩⟩⟩, ⟨⟨⟨[examplePR2], ⟨false, none⟩, 2⟩⟩⟩] =
      (some [examplePR1, examplePR2],
       [⟨"owner", "repo", "2023-01-01T00:00:00Z", 100, none⟩,
        ⟨"owner", "repo", "2023-01-01T00:00:00Z", 100, some "cursor1"⟩]) ∧
    isCompleteScript [⟨⟨⟨[examplePR3], ⟨false, none⟩, 1⟩⟩⟩] = true ∧
    getAllPullRequestsWithCommentsSince "o" "r" "s" [⟨⟨⟨[examplePR3], ⟨false, none⟩, 1⟩⟩⟩] =
      (some (([⟨⟨⟨[examplePR3], ⟨false, none⟩, 1⟩⟩⟩] : List PullRequestsResponse).map
          (fun p => p.repository.pullRequests.nodes)).flatten,
       chainRequests "o" "r" "s" none [⟨⟨⟨[examplePR3], ⟨false, none⟩, 1⟩⟩⟩]) :=
  ⟨getAll_pagination_spec.1 "owner" "repo" "2023-01-01T00:00:00Z" examplePR1 examplePR2 2 2 none,
   rfl,
   getAll_pagination_spec.2 "o" "r" "s" [⟨⟨⟨[examplePR3], ⟨false, none⟩, 1⟩⟩⟩] rfl⟩

/-- C3: for any single-page response with `hasNextPage = false` — whatever
its `endCursor` holds — the aggregation issues exactly one request (with
no cursor) and returns exactly that page's nodes in order; any further
transport responses are never consulted. -/
theorem getAll_single_page (owner repo since : String) (resp : PullRequestsResponse)
    (rest : List PullRequestsResponse)
    (h : resp.repository.pullRequests.pageInfo.hasNextPage = false) :
    getAllPullRequestsWithCommentsSince owner repo since (resp :: rest) =
      (some resp.repository.pullRequests.nodes, [⟨owner, repo, since, 100, none⟩]) := by
  simp [getAllPullRequestsWithCommentsSince, getAllAux, h]

/-- Witness for C3: a single page with two nodes, `hasNextPage = false`,
and a stale non-null `endCursor`; a further queued response is ignored. -/
theorem getAll_single_page_witness :
    getAllPullRequestsWithCommentsSince "owner" "repo" "since"
        [⟨⟨⟨[examplePR1, examplePR2], ⟨false, some "staleCursor"⟩, 2⟩⟩⟩,
         ⟨⟨⟨[examplePR3], ⟨false, none⟩, 1⟩⟩⟩] =
      (some [examplePR1, examplePR2], [⟨"owner", "repo", "since", 100, none⟩]) :=
  getAll_single_page "owner" "repo" "since"
    ⟨⟨⟨[examplePR1, examplePR2], ⟨false, some "staleCursor"⟩, 2⟩⟩⟩
    [⟨⟨⟨[examplePR3], ⟨false, none⟩, 1⟩⟩⟩] rfl

/-! Theorems about the summary aggregation. -/

/-- Helper: folding addition of a projected field equals the sum of the
projections. -/
theorem foldl_add_eq_sum {α : Type} (f : α → Nat) :
    ∀ (l : List α) (n : Nat), l.foldl (fun s x => s + f x) n = n + (l.map f).sum
  | [], n => by simp
  | x :: l, n => by
    simp [foldl_add_eq_sum f l (n + f x), Nat.add_assoc]

/-- C5: `totalComments` is the sum of the PRs' `comments.totalCount`
fields (and `totalReviewComments` of `reviewComments.totalCount`), not
the length of the fetched comment node lists; on the three-PR fixture
(OPEN/MERGED/CLOSED, totals (2,1), (3,2), (1,0), authors user1, user2,
user1) the summary is totalPRs 3, openPRs 1, closedPRs 1, mergedPRs 1,
totalComments 6, totalReviewComments 3, prsByAuthor user1 2, user2 1 —
while the fixture's fetched comment node lists are all empty. -/
theorem getPRSummary_totals (prs : List PullRequest) :
    (getPRSummaryOf prs).totalComments = (prs.map (fun pr => pr.comments.totalCount)).sum ∧
    (getPRSummaryOf prs).totalReviewComments =
      (prs.map (fun pr => pr.reviewComments.totalCount)).sum ∧
    getPRSummaryOf examplePRs = ⟨3, 1, 1, 1, 6, 3, [("user1", 2), ("user2", 1)]⟩ ∧
    (examplePRs.map (fun pr => pr.comments.nodes.length)).sum = 0 := by
  refine ⟨?_, ?_, by decide, by decide⟩
  · simp [getPRSummaryOf, foldl_add_eq_sum]
  · simp [getPRSummaryOf, foldl_add_eq_sum]

/-- C7: the summary is a pure, deterministic function of the fetched PR
list: two aggregation runs whose pagination produced identical PR lists
produce equal summaries, whatever the endpoint arguments or transport
scripts were. -/
theorem getPRSummary_deterministic (o1 r1 s1 o2 r2 s2 : String)
    (pages1 pages2 : List PullRequestsResponse)
    (h : (getAllPullRequestsWithCommentsSince o1 r1 s1 pages1).1 =
         (getAllPullRequestsWithCommentsSince o2 r2 s2 pages2).1) :
    getPRSummary o1 r1 s1 pages1 = getPRSummary o2 r2 s2 pages2 := by
  simp [getPRSummary, h]

/-- Witness for C7: two runs against different endpoints and different
scripts that fetch the same single PR. -/
theorem getPRSummary_deterministic_witness :
    getPRSummary "ownerA" "repoA" "sinceA"
        [⟨⟨⟨[examplePR1], ⟨false, some "staleCursor"⟩, 1⟩⟩⟩] =
      getPRSummary "ownerB" "repoB" "sinceB" [⟨⟨⟨[examplePR1], ⟨false, none⟩, 7⟩⟩⟩] :=
  getPRSummary_deterministic "ownerA" "repoA" "sinceA" "ownerB" "repoB" "sinceB"
    [⟨⟨⟨[examplePR1], ⟨false, some "staleCursor"⟩, 1⟩⟩⟩]
    [⟨⟨⟨[examplePR1], ⟨false, none⟩, 7⟩⟩⟩] rfl

/-- Helper: the incrementing branch of `bumpAuthor` keeps the key list
unchanged. -/
theorem map_fst_bump_map (a : String) :
    ∀ g : List (String × Nat),
      (g.map (fun kv => if kv.1 == a then (kv.1, kv.2 + 1) else kv)).map Prod.fst =
        g.map Prod.fst
  | [] => rfl
  | kv :: g => by
    simp only [List.map_cons]
    rw [map_fst_bump_map a g]
    by_cases hkv : (kv.1 == a) = true
    · rw [if_pos hkv]
    · rw [if_neg hkv]

/-- Helper: when no key matches, the incrementing branch of `bumpAuthor`
is the identity. -/
theorem bump_map_eq_self (a : String) :
    ∀ g : List (String × Nat), (∀ x ∈ g, (x.1 == a) = false) →
      g.map (fun kv => if kv.1 == a then (kv.1, kv.2 + 1) else kv) = g
  | [], _ => rfl
  | kv :: g, h => by
    have h0 := h kv (List.mem_cons_self kv g)
    simp only [List.map_cons]
    rw [if_neg (by simp [h0]),
      bump_map_eq_self a g (fun x hx => h x (List.mem_cons_of_mem kv hx))]

/-- Helper: with distinct keys and a matching key present, the
incrementing branch adds exactly one to the value sum. -/
theorem sum_snd_bump_map (a : String) :
    ∀ g : List (String × Nat), (g.map Prod.fst).Nodup →
      g.any (fun kv => kv.1 == a) = true →
      ((g.map (fun kv => if kv.1 == a then (kv.1, kv.2 + 1) else kv)).map Prod.snd).sum =
        (g.map Prod.snd).sum + 1
  | [], _, h => by simp at h
  | kv :: g, hnd, h => by
    simp only [List.map_cons, List.nodup_cons] at hnd
    simp only [List.map_cons, List.sum_cons]
    by_cases hkv : (kv.1 == a) = true
    · have hk : kv.1 = a := eq_of_beq hkv
      have hrest : ∀ x ∈ g, (x.1 == a) = false := by
        intro x hx
        have hne : x.1 ≠ a := by
          intro hxa
          exact hnd.1 (hk ▸ hxa ▸ List.mem_map_of_mem Prod.fst hx)
        exact beq_eq_false_iff_ne.mpr hne
      rw [if_pos hkv, bump_map_eq_self a g hrest]
      show kv.2 + 1 + (g.map Prod.snd).sum = kv.2 + (g.map Prod.snd).sum + 1
      omega
    · have hkv0 : (kv.1 == a) = false := Bool.eq_false_iff.mpr hkv
      have hany : g.any (fun kv => kv.1 == a) = true := by
        simpa [hkv0] using h
      rw [if_neg hkv, sum_snd_bump_map a g hnd.2 hany]
      show kv.2 + ((g.map Prod.snd).sum + 1) = kv.2 + (g.map Prod.snd).sum + 1
      omega

/-- Helper: `bumpAuthor` preserves distinctness of the keys. -/
theorem nodup_keys_bumpAuthor (g : List (String × Nat)) (a : String)
    (hnd : (g.map Prod.fst).Nodup) :
    ((bumpAuthor g a).map Prod.fst).Nodup := by
  by_cases h : g.any (fun kv => kv.1 == a) = true
  · rw [bumpAuthor, if_pos h, map_fst_bump_map]
    exact hnd
  · have ha : a ∉ g.map Prod.fst := by
      intro hmem
      rcases List.mem_map.mp hmem with ⟨kv, hkv, hfst⟩
      have := List.any_eq_false.mp (Bool.eq_false_iff.mpr h) kv hkv
      simp [hfst] at this
    rw [bumpAuthor, if_neg h, List.map_append]
    show ((g.map Prod.fst) ++ [a]).Nodup
    refine List.nodup_append.mpr ⟨hnd, List.nodup_singleton a, ?_⟩
    intro x hx hx2
    rw [List.mem_singleton] at hx2
    subst hx2
    exact ha hx

/-- Helper: with distinct keys, `bumpAuthor` adds exactly one to the value
sum. -/
theorem sum_snd_bumpAuthor (g : List (String × Nat)) (a : String)
    (hnd : (g.map Prod.fst).Nodup) :
    ((bumpAuthor g a).map Prod.snd).sum = (g.map Prod.snd).sum + 1 := by
  by_cases h : g.any (fun kv => kv.1 == a) = true
  · rw [bumpAuthor, if_pos h]
    exact sum_snd_bump_map a g hnd h
  · rw [bumpAuthor, if_neg h]
    simp

/-- Helper: every key after a `bumpAuthor` step was already a key or is
the bumped author. -/
theorem mem_keys_bumpAuthor (g : List (String × Nat)) (a : String) (k : String)
    (hk : k ∈ (bumpAuthor g a).map Prod.fst) : k ∈ g.map Prod.fst ∨ k = a := by
  by_cases h : g.any (fun kv => kv.1 == a) = true
  · left
    rwa [bumpAuthor, if_pos h, map_fst_bump_map] at hk
  · rw [bumpAuthor, if_neg h, List.map_append] at hk
    rcases List.mem_append.mp hk with hk2 | hk2
    · exact Or.inl hk2
    · right
      simpa using hk2

/-- Helper: `bumpAuthor` preserves positivity of all counts. -/
theorem pos_snd_bumpAuthor (g : List (String × Nat)) (a : String)
    (hpos : ∀ kv ∈ g, 0 < kv.2) : ∀ kv ∈ bumpAuthor g a, 0 < kv.2 := by
  intro kv hkv
  by_cases h : g.any (fun x => x.1 == a) = true
  · rw [bumpAuthor, if_pos h] at hkv
    rcases List.mem_map.mp hkv with ⟨x, hx, rfl⟩
    show 0 < (if (x.1 == a) = true then (x.1, x.2 + 1) else x).2
    by_cases hxa : (x.1 == a) = true
    · rw [if_pos hxa]
      exact Nat.succ_pos x.2
    · rw [if_neg hxa]
      exact hpos x hx
  · rw [bumpAuthor, if_neg h] at hkv
    rcases List.mem_append.mp hkv with hx | hx
    · exact hpos kv hx
    · simp only [List.mem_singleton] at hx
      simp [hx]

/-- Helper: the invariant of `groupByAuthor`'s fold — starting from a
record with distinct keys, the result has distinct keys, its value sum
grows by exactly the number of PRs folded, its keys come from the start
record or the folded logins, and positivity of counts is preserved. -/
theorem foldl_bump_spec :
    ∀ (prs : List PullRequest) (g : List (String × Nat)), (g.map Prod.fst).Nodup →
      ((prs.foldl (fun grouped pr => bumpAuthor grouped pr.author.login) g).map Prod.fst).Nodup ∧
      ((prs.foldl (fun grouped pr => bumpAuthor grouped pr.author.login) g).map Prod.snd).sum =
        (g.map Prod.snd).sum + prs.length ∧
      (∀ k ∈ (prs.foldl (fun grouped pr => bumpAuthor grouped pr.author.login) g).map Prod.fst,
        k ∈ g.map Prod.fst ∨ k ∈ prs.map (fun pr => pr.author.login)) ∧
      ((∀ kv ∈ g, 0 < kv.2) →
        ∀ kv ∈ prs.foldl (fun grouped pr => bumpAuthor grouped pr.author.login) g, 0 < kv.2)
  | [], g, hnd => by
    refine ⟨by simpa using hnd, by simp, by simp, ?_⟩
    intro hpos kv hkv
    exact hpos kv (by simpa using hkv)
  | pr :: prs, g, hnd => by
    have hnd2 := nodup_keys_bumpAuthor g pr.author.login hnd
    have ih := foldl_bump_spec prs (bumpAuthor g pr.author.login) hnd2
    simp only [List.foldl_cons]
    refine ⟨ih.1, ?_, ?_, ?_⟩
    · rw [ih.2.1, sum_snd_bumpAuthor g pr.author.login hnd]
      simp only [List.length_cons]
      omega
    · intro k hk
      rcases ih.2.2.1 k hk with hk2 | hk2
      · rcases mem_keys_bumpAuthor g pr.author.login k hk2 with h3 | h3
        · exact Or.inl h3
        · right
          simp [h3]
      · right
        simp only [List.map_cons, List.mem_cons]
        exact Or.inr hk2
    · intro hpos
      exact ih.2.2.2 (pos_snd_bumpAuthor g pr.author.login hpos)

/-- C9: in the summary, the per-author counts of `prsByAuthor` sum to
`totalPRs`, and every entry's key is the author login of at least one PR
of the list, with a strictly positive count (no zero-count entries). -/
theorem prsByAuthor_partition (prs : List PullRequest) :
    ((getPRSummaryOf prs).prsByAuthor.map Prod.snd).sum = (getPRSummaryOf prs).totalPRs ∧
    (∀ kv ∈ (getPRSummaryOf prs).prsByAuthor,
      kv.1 ∈ prs.map (fun pr => pr.author.login) ∧ 0 < kv.2) := by
  have h := foldl_bump_spec prs [] (by simp)
  constructor
  · simpa [getPRSummaryOf, groupByAuthor] using h.2.1
  · intro kv hkv
    have hkv2 : kv ∈ prs.foldl (fun grouped pr => bumpAuthor grouped pr.author.login) [] := by
      simpa [getPRSummaryOf, groupByAuthor] using hkv
    constructor
    · have hmem := h.2.2.1 kv.1 (List.mem_map_of_mem Prod.fst hkv2)
      simpa using hmem
    · exact h.2.2.2 (by simp) kv hkv2

/-- Witness for C9: the entry `(user1, 2)` of the three-PR fixture's
summary. -/
theorem prsByAuthor_partition_witness :
    ((getPRSummaryOf examplePRs).prsByAuthor.map Prod.snd).sum =
      (getPRSummaryOf examplePRs).totalPRs ∧
    ("user1", 2).1 ∈ examplePRs.map (fun pr => pr.author.login) ∧ 0 < ("user1", 2).2 :=
  ⟨(prsByAuthor_partition examplePRs).1,
   (prsByAuthor_partition examplePRs).2 ("user1", 2) (by decide)⟩

/-! Theorems about the date utilities. -/

/-- C8: `daysAgo(0)` subtracts zero days from the current moment, so for
every call moment it formats the very same instant: the formatted
timestamp equals `formatDate` of the current moment and its UTC calendar
day equals the current moment's calendar day. -/
theorem daysAgo_zero_today (now : JSDate) :
    setDateMinusDays now 0 = now ∧
    daysAgo now 0 = formatDate now ∧
    calendarDayIndex (setDateMinusDays now 0) = calendarDayIndex now := by
  have h : setDateMinusDays now 0 = now := by
    simp [setDateMinusDays]
  exact ⟨h, by rw [daysAgo, h], by rw [h]⟩

end GitHubGraphQL
